import Mathlib

set_option maxRecDepth 100000

/-!
Verification development for the SAGA catalog-curation toolkit.

Shallow embedding of:
* `SAGA/utils.py` — `join_table_by_coordinates`, `fill_values_by_query`;
* `SAGA/hosts/host_catalog.py` — `HostCatalog.resolve_id`;
* `SAGA/spectra/read_observed.py` — `read_generic_spectra`, `read_mmt`;
* `SAGA/database/external.py` — `SdssQuery.__init__` / `construct_query`.

Modelling conventions:
* astropy tables are ordered association lists from column name to the list of
  cells of that column; all cells of one table share one abstract cell type.
* Third-party library calls (`SkyCoord.search_around_sky`, `easyquery.Query`,
  `Table.read`, FITS access) are abstracted as function parameters; the
  surrounding repository logic is transcribed from the source.
* Python strings are Lean `String`/`List Char`; Python `re.sub`/`str.replace`/
  `str.strip`/`str.lower`/`int(...)` are given executable models below
  (ASCII behaviour, which is the domain the repository uses).
* Floating point rendering (`'{:.10g}'.format`) is not modelled; the rendered
  numeric fields of the SQL template are taken as opaque strings.
-/

/-! ## Python string primitives -/

/-- Characters matched by the regex class `\s` (ASCII, as used by `re.sub`)
and stripped by `str.strip()` / `int(str)`. -/
def pyIsSpace (c : Char) : Bool :=
  c == ' ' || c == '\t' || c == '\n' || c == '\r' || c == '\x0b' || c == '\x0c'

/-- ASCII decimal digit test (`[0-9]`). -/
def isDigitC (c : Char) : Bool := 48 ≤ c.toNat && c.toNat ≤ 57

/-- ASCII letter test (the regex class `[A-Za-z]`). -/
def isAsciiLetter (c : Char) : Bool :=
  (65 ≤ c.toNat && c.toNat ≤ 90) || (97 ≤ c.toNat && c.toNat ≤ 122)

/-- `str.lower` on one ASCII character (python maps `A`–`Z` to `a`–`z`). -/
def pyLowerChar (c : Char) : Char :=
  if 65 ≤ c.toNat ∧ c.toNat ≤ 90 then Char.ofNat (c.toNat + 32) else c

/-- Python `str.lower()` (ASCII domain). -/
def pyLower (s : String) : String := ⟨s.data.map pyLowerChar⟩

/-- Strip leading and trailing whitespace (python `str.strip()`). -/
def pyStripChars (l : List Char) : List Char :=
  (((l.dropWhile pyIsSpace).reverse.dropWhile pyIsSpace)).reverse

/-- Numeric value of a list of decimal digits. -/
def digitsVal (l : List Char) : Nat := l.foldl (fun a c => a * 10 + (c.toNat - 48)) 0

/-- Model of python `int(s)` on strings: optional surrounding whitespace, an
optional sign, then a nonempty run of decimal digits; anything else raises
`ValueError`, modelled as `none`. -/
def pyIntOfString (s : String) : Option Int :=
  match pyStripChars s.data with
  | [] => none
  | c :: cs =>
    if c == '+' then
      (if cs ≠ [] ∧ cs.all isDigitC then some ((digitsVal cs : Nat) : Int) else none)
    else if c == '-' then
      (if cs ≠ [] ∧ cs.all isDigitC then some (-((digitsVal cs : Nat) : Int)) else none)
    else
      (if (c :: cs).all isDigitC then some ((digitsVal (c :: cs) : Nat) : Int) else none)

/-- Python substring containment `pat in s` on character lists. -/
def containsSub : List Char → List Char → Bool
  | [], pat => pat.isEmpty
  | c :: cs, pat => pat.isPrefixOf (c :: cs) || containsSub cs pat

/-- Python `str.endswith`. -/
def pyEndsWith (s suf : String) : Bool := suf.data.isSuffixOf s.data

/-- Left-to-right, non-overlapping replacement of every occurrence of `pat`
by `repl` (python `str.replace(pat, repl)`; `pat` is nonempty in every use
below).  The `skip` counter carries how many already-matched characters are
still to be consumed, keeping the recursion structural. -/
def listReplaceGo (pat repl : List Char) : List Char → Nat → List Char
  | [], _ => []
  | c :: cs, 0 =>
    if pat ≠ [] ∧ pat.isPrefixOf (c :: cs) then
      repl ++ listReplaceGo pat repl cs (pat.length - 1)
    else
      c :: listReplaceGo pat repl cs 0
  | _ :: cs, skip + 1 => listReplaceGo pat repl cs skip

/-- Python `str.replace` on character lists. -/
def listReplace (s pat repl : List Char) : List Char := listReplaceGo pat repl s 0

/-- Python `str.replace` on strings. -/
def pyReplace (s pat repl : String) : String := ⟨listReplace s.data pat.data repl.data⟩

/-- One pass of `re.sub(r'\s+', ' ', ·)`: the boolean state records whether the
previous character was whitespace (so further whitespace is dropped). -/
def collapseWsAux : List Char → Bool → List Char
  | [], _ => []
  | c :: cs, inWs =>
    if pyIsSpace c then
      (if inWs then collapseWsAux cs true else ' ' :: collapseWsAux cs true)
    else
      c :: collapseWsAux cs false

/-- `re.sub(r'\s+', ' ', s)`. -/
def collapseWs (s : String) : String := ⟨collapseWsAux s.data false⟩

/-- The whitespace state left by a character list, threading `collapseWsAux`. -/
def endStateWs : List Char → Bool → Bool
  | [], b => b
  | c :: cs, _ => endStateWs cs (pyIsSpace c)

/-- `true` when no nonempty strict initial segment of `pat` (a candidate for a
match spanning out of `x` to the right) is a suffix of `x`. -/
def spanFree (x pat : List Char) : Bool :=
  (List.range pat.length).all (fun k => k == 0 || !((pat.take k).isSuffixOf x))

/-- Characters `'{:.10g}'.format` can produce for a float (digits, sign, dot,
exponent marker, `inf`/`nan` letters). -/
def floatChar (c : Char) : Bool :=
  isDigitC c || c == '.' || c == '+' || c == '-' || c == 'e' ||
  c == 'i' || c == 'n' || c == 'f' || c == 'a'

/-- A plausible rendering of a float: nonempty and made of `floatChar`s. -/
def floatLike (s : String) : Bool := !s.data.isEmpty && s.data.all floatChar

/-! ## `SAGA/utils.py`: the astropy table model -/

/-- An astropy `Table`: an ordered association list from column name to the
column's cells (all columns of one table have one cell type `α`). -/
abbrev Table (α : Type) : Type := List (String × List α)

def Table.colnames {α : Type} (t : Table α) : List String := t.map Prod.fst

def Table.hasCol {α : Type} (t : Table α) (c : String) : Bool :=
  t.any (fun p => p.1 == c)

def Table.getCol {α : Type} (t : Table α) (c : String) : Option (List α) :=
  (t.find? (fun p => p.1 == c)).map Prod.snd

def Table.getColD {α : Type} (t : Table α) (c : String) : List α :=
  (t.getCol c).getD []

/-- `t[c] = v`: overwrite the column if present, else append it. -/
def Table.setCol {α : Type} (t : Table α) (c : String) (v : List α) : Table α :=
  if t.hasCol c then t.map (fun p => if p.1 == c then (c, v) else p)
  else t ++ [(c, v)]

/-- Row count, read off the first column (astropy tables are rectangular). -/
def Table.nrows {α : Type} (t : Table α) : Nat :=
  match t with
  | [] => 0
  | p :: _ => p.2.length

/-- numpy fancy assignment `dst[idx1] = src[idx2]`: elementwise writes in
enumeration order, later writes to one index winning. -/
def scatterAssign {α : Type} [Inhabited α] (dst : List α)
    (pairs : List (Nat × Nat)) (src : List α) : List α :=
  pairs.foldl (fun d ij => d.set ij.1 (src.getD ij.2 default)) dst

/-- The `missing_value` argument of `join_table_by_coordinates`: a scalar or a
per-column dict (`isinstance(missing_value, dict)` in the source). -/
inductive MissingValue (α : Type) where
  | scalar (v : α)
  | dict (d : List (String × α))

/-- `SAGA.utils.join_table_by_coordinates`.  The astropy call
`sc_to_join.search_around_sky(sc, max_distance)` is abstracted as the
`search_around_sky` parameter mapping the two RA/DEC column pairs to the
matched index pairs `(idx1 into table, idx2 into table_to_join)`; `nan`
stands for `np.nan`, the fallback fill when `missing_value` is a dict. -/
def join_table_by_coordinates {α : Type} [Inhabited α]
    (search_around_sky : List α → List α → List α → List α → List (Nat × Nat))
    (table table_to_join : Table α)
    (columns_to_join : Option (List String))
    (columns_to_rename : List (String × String))
    (missing_value : MissingValue α) (nan : α)
    (table_ra_name table_dec_name table_to_join_ra_name table_to_join_dec_name : String) :
    Table α × Nat :=
  let idx := search_around_sky
    (table.getColD table_ra_name) (table.getColD table_dec_name)
    (table_to_join.getColD table_to_join_ra_name) (table_to_join.getColD table_to_join_dec_name)
  let n_matched := idx.length
  if n_matched ≠ 0 then
    let cols := columns_to_join.getD table_to_join.colnames
    let missing_value_dict : List (String × α) :=
      match missing_value with
      | .dict d => d
      | .scalar _ => []
    let missing_scalar : α :=
      match missing_value with
      | .dict _ => nan
      | .scalar v => v
    let t1 := cols.foldl (fun t c2 =>
      let c1 := ((columns_to_rename.find? (fun p => p.1 == c2)).map Prod.snd).getD c2
      let t' := if t.hasCol c1 then t
        else t.setCol c1 (List.replicate t.nrows
          (((missing_value_dict.find? (fun p => p.1 == c1)).map Prod.snd).getD missing_scalar))
      t'.setCol c1 (scatterAssign (t'.getColD c1) idx (table_to_join.getColD c2))) table
    (t1, n_matched)
  else (table, n_matched)

/-- numpy masked assignment `col[mask] = v`. -/
def maskedFill {α : Type} (col : List α) (mask : List Bool) (v : α) : List α :=
  (col.zip mask).map (fun xb => if xb.2 then v else xb.1)

/-- `SAGA.utils.fill_values_by_query`.  `easyquery.Query(query).mask(table)` is
abstracted as the `query` parameter producing the boolean row mask. -/
def fill_values_by_query {α : Type} (query : Table α → List Bool) (table : Table α)
    (values_to_fill : List (String × α)) : Table α × Nat :=
  let mask := query table
  let n_matched := mask.count true
  if n_matched ≠ 0 then
    (values_to_fill.foldl
      (fun t cv => t.setCol cv.1 (maskedFill (t.getColD cv.1) mask cv.2)) table,
     n_matched)
  else (table, n_matched)

/-! ## `SAGA/hosts/host_catalog.py` -/

/-- The hard-coded paper1 complete host ID set. -/
def _paper1_complete_hosts : List Int :=
  [166313, 147100, 165536, 61945, 132339, 149781, 33446, 150887]

/-- The hard-coded paper1 incomplete host ID set. -/
def _paper1_incomplete_hosts : List Int :=
  [161174, 85746, 145729, 140594, 126115, 13927, 137625, 129237]

/-- The state a `HostCatalog` builds in `__init__`: all host IDs (from the
`no_flags` catalog) and the name-to-ID map whose keys were lowercased at
construction time. -/
structure HostCatalog where
  all_host_ids : List Int
  host_name_to_id : List (String × Int)

/-- The argument of `HostCatalog.resolve_id`: an int, a string, or a
(possibly nested) list of such values. -/
inductive HostsArg where
  | int (n : Int)
  | str (s : String)
  | list (l : List HostsArg)

mutual
/-- `HostCatalog.resolve_id`.  `int(hosts)` success on ints and numeric
strings returns the singleton; otherwise strings go through the lowercased
shorthand/name lookup, and any other (list) input is resolved elementwise.
`raise ValueError('cannot resolve {}')` is the `Except.error` branch. -/
def resolve_id (cat : HostCatalog) : HostsArg → Except String (List Int)
  | .int n => .ok [n]
  | .str s =>
    match pyIntOfString s with
    | some n => .ok [n]
    | none =>
      let l := pyLower s
      if l = "all" then .ok cat.all_host_ids
      else if l = "paper1_complete" then .ok _paper1_complete_hosts
      else if l = "paper1_incomplete" then .ok _paper1_incomplete_hosts
      else if l = "paper1" then .ok (_paper1_complete_hosts ++ _paper1_incomplete_hosts)
      else
        match cat.host_name_to_id.find? (fun p => p.1 == pyLower l) with
        | some p => .ok [p.2]
        | none => .error ("cannot resolve " ++ l)
  | .list l => resolve_id_list cat l

/-- The `for host in hosts: out.extend(self.resolve_id(host))` loop; an
exception from any element propagates (short-circuits). -/
def resolve_id_list (cat : HostCatalog) : List HostsArg → Except String (List Int)
  | [] => .ok []
  | h :: t =>
    match resolve_id cat h with
    | .error e => .error e
    | .ok a =>
      match resolve_id_list cat t with
      | .error e => .error e
      | .ok b => .ok (a ++ b)
end

/-! ## `SAGA/spectra/read_observed.py` -/

/-- What `astropy.table.vstack` raises in `read_generic_spectra`:
`noValues` models the error on an empty input list, `notATable` the
`TypeError` when a list element is not a table (here: the `None` returned by a
`midprocess` that hit the `before_time` cutoff). -/
inductive VstackError where
  | noValues
  | notATable
deriving DecidableEq

/-- `astropy.table.vstack(tables, 'exact')` over per-file results, where a
list entry is `none` when the python list holds `None`.  Raises on an empty
list and on any non-table entry; otherwise concatenates the rows.  (The
`'exact'` column-set check cannot fail here: every stacked table went through
`ensure_specs_dtype`, which normalizes the column set.) -/
def vstack_exact {ρ : Type} (tables : List (Option (List ρ))) : Except VstackError (List ρ) :=
  if tables.isEmpty then .error .noValues
  else if tables.any (fun t => t.isNone) then .error .notATable
  else .ok (tables.foldl (fun acc t => acc ++ t.getD []) [])

/-- `read_generic_spectra`.  Rows have abstract type `ρ`; the per-file
pipeline pieces are parameters:
* `table_read f` — `astropy.table.Table.read` on file `f` (`.error` models the
  caught `IOError`/`CParserError`);
* `ensure_dtype_pre` — `ensure_specs_dtype(this, skip_missing_cols=True)`;
* `cuts_filter` — `Query(cuts).filter(this)`;
* `set_maskname f` — `if "MASKNAME" not in this.colnames: this["MASKNAME"] = f`;
* `midprocess` — the optional per-telescope hook; returning `none` models a
  python `return` without value (`None`), which the source appends to `output`
  unguarded;
* `set_telname`, `postprocess`, `ensure_dtype_post` — the tail of the source.
The loop body (`read_generic_spectra_step` below) mirrors the source: skip
wrong extensions, skip file names containing "conflicted copy", skip
unreadable files, skip files filtered to zero rows, then append the
(possibly `None`) midprocess result. -/
def read_generic_spectra_step {ρ : Type} (extension : String)
    (table_read : String → Except Unit (List ρ))
    (ensure_dtype_pre : List ρ → List ρ)
    (cuts_filter : List ρ → List ρ)
    (set_maskname : String → List ρ → List ρ)
    (midprocess : Option (List ρ → Option (List ρ)))
    (output : List (Option (List ρ))) (f : String) : List (Option (List ρ)) :=
  if pyEndsWith f extension = false then output
  else if containsSub f.data ("conflicted copy").data then output
  else
    match table_read f with
    | .error _ => output
    | .ok this0 =>
      let this1 := cuts_filter (ensure_dtype_pre this0)
      if this1.isEmpty then output
      else
        let this2 := set_maskname f this1
        let this3 := match midprocess with
          | some mp => mp this2
          | none => some this2
        output ++ [this3]

/-- See `read_generic_spectra_step` for the loop body. -/
def read_generic_spectra {ρ : Type}
    (dir_listing : List String) (extension : String)
    (table_read : String → Except Unit (List ρ))
    (ensure_dtype_pre : List ρ → List ρ)
    (cuts_filter : List ρ → List ρ)
    (set_maskname : String → List ρ → List ρ)
    (midprocess : Option (List ρ → Option (List ρ)))
    (set_telname : List ρ → List ρ)
    (postprocess : List ρ → List ρ)
    (ensure_dtype_post : List ρ → List ρ) :
    Except VstackError (List ρ) :=
  match vstack_exact (dir_listing.foldl
      (read_generic_spectra_step extension table_read ensure_dtype_pre cuts_filter
        set_maskname midprocess) []) with
  | .error e => .error e
  | .ok t => .ok (ensure_dtype_post (postprocess (set_telname t)))

/-- The `midprocess` closure of `read_mmt` (the `read_aat`/`read_aat_mz` ones
are structurally identical).  `helio t` models
`heliocentric_correction(<fits companion of t's MASKNAME>, ...)`, whose
`IOError` (missing companion file) is the `.error` branch; on success it
yields the correction and the observation time.  `apply_corr` models
`t["SPEC_Z"] += corr`, `set_helio_corr` models `t["HELIO_CORR"] = b`.
Returning `none` is the source's bare `return` when
`before_time is not None and obstime > before_time`. -/
def mmt_midprocess {ρ γ : Type}
    (helio : List ρ → Except Unit (γ × Int))
    (apply_corr : γ → List ρ → List ρ)
    (set_helio_corr : Bool → List ρ → List ρ)
    (before_time : Option Int)
    (t : List ρ) : Option (List ρ) :=
  match helio t with
  | .error _ => some (set_helio_corr false t)
  | .ok cg =>
    match before_time with
    | some bt =>
      if cg.2 > bt then none
      else some (set_helio_corr true (apply_corr cg.1 t))
    | none => some (set_helio_corr true (apply_corr cg.1 t))

/-- `read_mmt dir_path before_time`: `read_generic_spectra` over `.zlog`
files with the MMT midprocess; the MMT cuts/postprocess details are carried by
the abstract parameters. -/
def read_mmt {ρ γ : Type}
    (dir_listing : List String)
    (table_read : String → Except Unit (List ρ))
    (ensure_dtype_pre : List ρ → List ρ)
    (cuts_filter : List ρ → List ρ)
    (set_maskname : String → List ρ → List ρ)
    (helio : List ρ → Except Unit (γ × Int))
    (apply_corr : γ → List ρ → List ρ)
    (set_helio_corr : Bool → List ρ → List ρ)
    (before_time : Option Int)
    (set_telname : List ρ → List ρ)
    (postprocess : List ρ → List ρ)
    (ensure_dtype_post : List ρ → List ρ) :
    Except VstackError (List ρ) :=
  read_generic_spectra dir_listing ".zlog" table_read ensure_dtype_pre cuts_filter
    set_maskname (some (mmt_midprocess helio apply_corr set_helio_corr before_time))
    set_telname postprocess ensure_dtype_post

/-! ## `SAGA/database/external.py`: `SdssQuery` -/

/-- `re.sub('[^A-Za-z]', '', s)`: strip every non-ASCII-letter character. -/
def pySubNonLetters (s : String) : String := ⟨s.data.filter isAsciiLetter⟩

/-- Python `str.strip()` on strings. -/
def pyStrip (s : String) : String := ⟨pyStripChars s.data⟩

/-- The part of `SdssQuery._query_template` before the `{ra:.10g}`
placeholder (the SELECT column list up to `fGetNearbyObjEq(`). -/
def _sdss_select_block : String :=
  "
        SELECT  p.objId  as OBJID,
        p.ra as RA, p.dec as DEC,
        p.type as PHOTPTYPE,  dbo.fPhotoTypeN(p.type) as PHOT_SG,

        p.flags as FLAGS, p.clean,
        flags & dbo.fPhotoFlags(\x27SATURATED\x27) as SATURATED,
        flags & dbo.fPhotoFlags(\x27BAD_COUNTS_ERROR\x27) as BAD_COUNTS_ERROR,
        flags & dbo.fPhotoFlags(\x27BINNED1\x27) as BINNED1,
        flags & dbo.fPhotoFlags(\x27TOO_FEW_GOOD_DETECTIONS\x27) as TOO_FEW_GOOD_DETECTIONS,

        p.modelMag_u as u, p.modelMag_g as g, p.modelMag_r as r,p.modelMag_i as i,p.modelMag_z as z,
        p.modelMagErr_u as u_err, p.modelMagErr_g as g_err,
        p.modelMagErr_r as r_err,p.modelMagErr_i as i_err,p.modelMagErr_z as z_err,

        p.MODELMAGERR_U,p.MODELMAGERR_G,p.MODELMAGERR_R,p.MODELMAGERR_I,p.MODELMAGERR_Z,

        p.EXTINCTION_U, p.EXTINCTION_G, p.EXTINCTION_R, p.EXTINCTION_I, p.EXTINCTION_Z,
        p.DERED_U,p.DERED_G,p.DERED_R,p.DERED_I,p.DERED_Z,

        p.PETRORAD_U,p.PETRORAD_G,p.PETRORAD_R,p.PETRORAD_I,p.PETRORAD_Z,
        p.PETRORADERR_U,p.PETRORADERR_G,p.PETRORADERR_R,p.PETRORADERR_I,p.PETRORADERR_Z,

        p.DEVRAD_U,p.DEVRADERR_U,p.DEVRAD_G,p.DEVRADERR_G,p.DEVRAD_R,p.DEVRADERR_R,
        p.DEVRAD_I,p.DEVRADERR_I,p.DEVRAD_Z,p.DEVRADERR_Z,
        p.DEVAB_U,p.DEVAB_G,p.DEVAB_R,p.DEVAB_I,p.DEVAB_Z,

        p.CMODELMAG_U, p.CMODELMAGERR_U, p.CMODELMAG_G,p.CMODELMAGERR_G,
        p.CMODELMAG_R, p.CMODELMAGERR_R, p.CMODELMAG_I,p.CMODELMAGERR_I,
        p.CMODELMAG_Z, p.CMODELMAGERR_Z,

        p.PSFMAG_U, p.PSFMAGERR_U, p.PSFMAG_G, p.PSFMAGERR_G,
        p.PSFMAG_R, p.PSFMAGERR_R, p.PSFMAG_I, p.PSFMAGERR_I,
        p.PSFMAG_Z, p.PSFMAGERR_Z,

        p.FIBERMAG_U, p.FIBERMAGERR_U, p.FIBERMAG_G, p.FIBERMAGERR_G,
        p.FIBERMAG_R, p.FIBERMAGERR_R, p.FIBERMAG_I, p.FIBERMAGERR_I,
        p.FIBERMAG_Z, p.FIBERMAGERR_Z,

        p.FRACDEV_U, p.FRACDEV_G, p.FRACDEV_R, p.FRACDEV_I, p.FRACDEV_Z,
        p.Q_U,p.U_U, p.Q_G,p.U_G, p.Q_R,p.U_R, p.Q_I,p.U_I, p.Q_Z,p.U_Z,

        p.EXPAB_U, p.EXPRAD_U, p.EXPPHI_U, p.EXPAB_G, p.EXPRAD_G, p.EXPPHI_G,
        p.EXPAB_R, p.EXPRAD_R, p.EXPPHI_R, p.EXPAB_I, p.EXPRAD_I, p.EXPPHI_I,
        p.EXPAB_Z, p.EXPRAD_Z, p.EXPPHI_Z,

        p.FIBER2MAG_R, p.FIBER2MAGERR_R,
        p.EXPMAG_R, p.EXPMAGERR_R,

        p.PETROR50_R, p.PETROR90_R, p.PETROMAG_R,
        p.expMag_r + 2.5*log10(2*PI()*p.expRad_r*p.expRad_r + 1e-20) as SB_EXP_R,
        p.petroMag_r + 2.5*log10(2*PI()*p.petroR50_r*p.petroR50_r) as SB_PETRO_R,

        ISNULL(w.j_m_2mass,9999) as J, ISNULL(w.j_msig_2mass,9999) as JERR,
        ISNULL(w.H_m_2mass,9999) as H, ISNULL(w.h_msig_2mass,9999) as HERR,
        ISNULL(w.k_m_2mass,9999) as K, ISNULL(w.k_msig_2mass,9999) as KERR,

        s.survey,
        ISNULL(s.z, -1) as SPEC_Z, ISNULL(s.zErr, -1) as SPEC_Z_ERR, ISNULL(s.zWarning, -1) as SPEC_Z_WARN,
        ISNULL(pz.z,-1) as PHOTOZ, ISNULL(pz.zerr,-1) as PHOTOZ_ERR

        FROM dbo.fGetNearbyObjEq("

/-- The template text between the `{r_arcmin:.10g}` and `{db_table_name}`
placeholders, ending in `INTO mydb.`. -/
def _sdss_from_to_into : String := ") n, PhotoPrimary p
        INTO mydb."

/-- The template text after the `{db_table_name}` placeholder (the JOIN and
WHERE clauses and the closing indentation). -/
def _sdss_tail_block : String := "
        LEFT JOIN SpecObj s ON p.specObjID = s.specObjID
        LEFT JOIN PHOTOZ  pz ON p.ObjID = pz.ObjID
        LEFT join WISE_XMATCH as wx on p.objid = wx.sdss_objid
        LEFT join wise_ALLSKY as w on  wx.wise_cntr = w.cntr
        WHERE n.objID = p.objID
    "

/-- `SdssQuery._query_template` with `str.format` applied: the `{ra:.10g}`,
`{dec:.10g}`, `{r_arcmin:.10g}` placeholders replaced by their rendered
strings and `{db_table_name}` by the table name (the `.10g` float rendering
itself is not modelled; the rendered values enter as opaque strings). -/
def _query_template (ra dec r_arcmin db_table_name : String) : String :=
  _sdss_select_block ++ ra ++ ", " ++ dec ++ ", " ++ r_arcmin ++
    _sdss_from_to_into ++ db_table_name ++ _sdss_tail_block

/-- `SdssQuery.construct_query`.  `db_table_name = none` models python
`None`: the template is filled with the `TO_BE_REMOVED` placeholder and the
whole `INTO mydb.<name> ` clause is removed at the end.  The chain mirrors
the source: fill the template, `re.sub(r\x27\s+\x27, \x27 \x27, q).strip()`, then
`re.sub(\x27, \x27, \x27,\x27, q)`, then the conditional `str.replace`. -/
def construct_query (ra dec r_arcmin : String) (db_table_name : Option String) : String :=
  let select_into_mydb := db_table_name.isSome
  let name := db_table_name.getD "TO_BE_REMOVED"
  let q0 := _query_template ra dec r_arcmin name
  let q1 := pyStrip (collapseWs q0)
  let q2 := pyReplace q1 ", " ","
  if select_into_mydb = false then pyReplace q2 ("INTO mydb." ++ name ++ " ") "" else q2

/-- The staging-table name `SdssQuery.__init__` stores and passes to
`construct_query` (the non-SciServer branch): a falsy `db_table_name`
(python `None` or `""`) is replaced by `"SAGA"` plus four random lowercase
letters, and the result is stripped to its ASCII letters by
`re.sub(\x27[^A-Za-z]\x27, \x27\x27, db_table_name)`. -/
def sdss_query_init_db_table_name (db_table_name : Option String)
    (random4 : String) : String :=
  let name := match db_table_name with
    | none => "SAGA" ++ random4
    | some s => if s = "" then "SAGA" ++ random4 else s
  pySubNonLetters name

/-! ## Table access lemmas -/

theorem Table.find?_map_set {α : Type} (v : List α) (c : String) :
    ∀ t : Table α, t.hasCol c = true →
      (t.map (fun p => if p.1 == c then (c, v) else p)).find? (fun p => p.1 == c) = some (c, v)
  | [], h => by simp [Table.hasCol] at h
  | p :: ps, h => by
    by_cases hp : p.1 == c
    · simp only [List.map_cons, if_pos hp]
      simp
    · have hps : Table.hasCol ps c = true := by
        rw [Table.hasCol, List.any_cons] at h
        simpa [hp, Table.hasCol] using h
      have hp0 : (p.1 == c) = false := by simpa using hp
      simp only [List.map_cons, if_neg hp]
      rw [List.find?_cons_of_neg _ (a := p) (by simp [hp0])]
      exact Table.find?_map_set v c ps hps

theorem Table.find?_eq_none_of_not_hasCol {α : Type} {t : Table α} {c : String}
    (h : t.hasCol c = false) : t.find? (fun p => p.1 == c) = none := by
  rw [List.find?_eq_none]
  intro x hx hbad
  have hany : t.any (fun p => p.1 == c) = true := List.any_eq_true.mpr ⟨x, hx, hbad⟩
  rw [Table.hasCol] at h
  rw [h] at hany
  exact Bool.false_ne_true hany

theorem Table.getCol_setCol_self {α : Type} (t : Table α) (c : String) (v : List α) :
    (t.setCol c v).getCol c = some v := by
  unfold Table.setCol Table.getCol
  by_cases h : t.hasCol c
  · rw [if_pos h, Table.find?_map_set v c t h]
    rfl
  · rw [if_neg h, List.find?_append,
      Table.find?_eq_none_of_not_hasCol (by simpa using h)]
    simp

theorem Table.getCol_setCol_ne {α : Type} (t : Table α) {c c' : String} (v : List α)
    (h : c' ≠ c) : (t.setCol c v).getCol c' = t.getCol c' := by
  unfold Table.setCol Table.getCol
  by_cases hc : t.hasCol c
  · rw [if_pos hc]
    clear hc
    induction t with
    | nil => simp
    | cons p ps ih =>
      by_cases hp : p.1 == c
      · have hpc : p.1 = c := by simpa using hp
        have h1 : ((c, v).1 == c') = false := by simp [Ne.symm h]
        have h2 : (p.1 == c') = false := by simp [hpc, Ne.symm h]
        simp only [List.map_cons, if_pos hp]
        rw [List.find?_cons_of_neg _ (a := (c, v)) (by simp [h1]),
          List.find?_cons_of_neg _ (a := p) (by simp [h2])]
        exact ih
      · simp only [List.map_cons, if_neg hp]
        by_cases hp' : p.1 == c'
        · rw [List.find?_cons_of_pos _ (a := p) hp', List.find?_cons_of_pos _ (a := p) hp']
        · rw [List.find?_cons_of_neg _ (a := p) hp', List.find?_cons_of_neg _ (a := p) hp']
          exact ih
  · rw [if_neg hc, List.find?_append]
    rw [List.find?_cons_of_neg _ (a := (c, v)) (by simp [Ne.symm h])]
    simp

theorem Table.hasCol_setCol_of {α : Type} {t : Table α} {c' : String} (c : String)
    (v : List α) (h : t.hasCol c' = true) : (t.setCol c v).hasCol c' = true := by
  unfold Table.setCol
  rw [Table.hasCol, List.any_eq_true] at h
  obtain ⟨p, hp, hpc⟩ := h
  by_cases hc : t.hasCol c
  · rw [if_pos hc, Table.hasCol, List.any_eq_true]
    by_cases hpeq : p.1 == c
    · refine ⟨(c, v), List.mem_map.mpr ⟨p, hp, by rw [if_pos hpeq]⟩, ?_⟩
      have h1 : p.1 = c := by simpa using hpeq
      simpa [← h1] using hpc
    · exact ⟨p, List.mem_map.mpr ⟨p, hp, by rw [if_neg hpeq]⟩, hpc⟩
  · rw [if_neg hc, Table.hasCol, List.any_eq_true]
    exact ⟨p, List.mem_append_left _ hp, hpc⟩

/-! ## C1 / C2: the coordinate joiner -/

/-- C1: for every pair of tables with RA/DEC columns,
`join_table_by_coordinates` returns the number of matched coordinate pairs
found by the sky search, and whenever that return value is `0` the base table
is returned completely unchanged — no cell is overwritten and no new column
is created. -/
theorem join_table_by_coordinates_count_and_no_match_identity {α : Type} [Inhabited α]
    (search_around_sky : List α → List α → List α → List α → List (Nat × Nat))
    (table table_to_join : Table α)
    (columns_to_join : Option (List String)) (columns_to_rename : List (String × String))
    (missing_value : MissingValue α) (nan : α)
    (table_ra_name table_dec_name table_to_join_ra_name table_to_join_dec_name : String) :
    (join_table_by_coordinates search_around_sky table table_to_join columns_to_join
        columns_to_rename missing_value nan table_ra_name table_dec_name
        table_to_join_ra_name table_to_join_dec_name).2 =
      (search_around_sky (table.getColD table_ra_name) (table.getColD table_dec_name)
        (table_to_join.getColD table_to_join_ra_name)
        (table_to_join.getColD table_to_join_dec_name)).length ∧
    ((join_table_by_coordinates search_around_sky table table_to_join columns_to_join
        columns_to_rename missing_value nan table_ra_name table_dec_name
        table_to_join_ra_name table_to_join_dec_name).2 = 0 →
      (join_table_by_coordinates search_around_sky table table_to_join columns_to_join
        columns_to_rename missing_value nan table_ra_name table_dec_name
        table_to_join_ra_name table_to_join_dec_name).1 = table) := by
  simp only [join_table_by_coordinates]
  split
  next h => exact ⟨rfl, fun h0 => absurd h0 h⟩
  next h => exact ⟨rfl, fun _ => rfl⟩

/-- Witness for C1 at a concrete input with no matches. -/
theorem join_table_by_coordinates_count_and_no_match_identity_witness :
    (join_table_by_coordinates (fun _ _ _ _ => ([] : List (Nat × Nat)))
        [("RA", [(1 : Int)]), ("DEC", [0])] [("RA", [(5 : Int)]), ("DEC", [3])]
        none [] (MissingValue.scalar 0) 0 "RA" "DEC" "RA" "DEC").2 = 0 ∧
    (join_table_by_coordinates (fun _ _ _ _ => ([] : List (Nat × Nat)))
        [("RA", [(1 : Int)]), ("DEC", [0])] [("RA", [(5 : Int)]), ("DEC", [3])]
        none [] (MissingValue.scalar 0) 0 "RA" "DEC" "RA" "DEC").1 =
      [("RA", [(1 : Int)]), ("DEC", [0])] := by
  have h := join_table_by_coordinates_count_and_no_match_identity
    (fun _ _ _ _ => ([] : List (Nat × Nat)))
    [("RA", [(1 : Int)]), ("DEC", [0])] [("RA", [(5 : Int)]), ("DEC", [3])]
    none [] (MissingValue.scalar 0) 0 "RA" "DEC" "RA" "DEC"
  exact ⟨by rw [h.1]; rfl, h.2 (by decide)⟩

/-- C2 counterexample: with coordinate sets beyond tolerance (the sky search
finds no pair) and `columns_to_join = ["W1"]`, where `"W1"` is absent from the
base table, the function returns `0` and the `"W1"` column is NOT created —
contradicting the claim that absent target columns are newly created and
filled with the missing value. -/
theorem join_table_by_coordinates_zero_match_creates_no_column :
    (join_table_by_coordinates (fun _ _ _ _ => ([] : List (Nat × Nat)))
        [("RA", [(10 : Int)]), ("DEC", [0])]
        [("RA", [(200 : Int)]), ("DEC", [0]), ("W1", [7])]
        (some ["W1"]) [] (MissingValue.scalar 0) 0 "RA" "DEC" "RA" "DEC").2 = 0 ∧
    Table.hasCol (join_table_by_coordinates (fun _ _ _ _ => ([] : List (Nat × Nat)))
        [("RA", [(10 : Int)]), ("DEC", [0])]
        [("RA", [(200 : Int)]), ("DEC", [0]), ("W1", [7])]
        (some ["W1"]) [] (MissingValue.scalar 0) 0 "RA" "DEC" "RA" "DEC").1 "W1" = false := by
  decide

/-- C2 amended: when the two coordinate sets are pairwise farther apart than
the tolerance (so the sky search returns no pair), `join_table_by_coordinates`
returns `0` and leaves the base table completely unmodified — in particular no
new column is created (column creation only happens when at least one pair
matches). -/
theorem join_table_by_coordinates_disjoint_identity {α : Type} [Inhabited α]
    (search_around_sky : List α → List α → List α → List α → List (Nat × Nat))
    (table table_to_join : Table α)
    (columns_to_join : Option (List String)) (columns_to_rename : List (String × String))
    (missing_value : MissingValue α) (nan : α)
    (table_ra_name table_dec_name table_to_join_ra_name table_to_join_dec_name : String)
    (h : search_around_sky (table.getColD table_ra_name) (table.getColD table_dec_name)
        (table_to_join.getColD table_to_join_ra_name)
        (table_to_join.getColD table_to_join_dec_name) = []) :
    join_table_by_coordinates search_around_sky table table_to_join columns_to_join
      columns_to_rename missing_value nan table_ra_name table_dec_name
      table_to_join_ra_name table_to_join_dec_name = (table, 0) := by
  simp only [join_table_by_coordinates, h]
  simp

/-- Witness for the amended C2 at a concrete input. -/
theorem join_table_by_coordinates_disjoint_identity_witness :
    join_table_by_coordinates (fun _ _ _ _ => ([] : List (Nat × Nat)))
        [("RA", [(10 : Int)]), ("DEC", [0])]
        [("RA", [(200 : Int)]), ("DEC", [0]), ("W1", [7])]
        (some ["W1"]) [] (MissingValue.scalar 0) 0 "RA" "DEC" "RA" "DEC" =
      ([("RA", [(10 : Int)]), ("DEC", [0])], 0) :=
  join_table_by_coordinates_disjoint_identity
    (fun _ _ _ _ => ([] : List (Nat × Nat)))
    [("RA", [(10 : Int)]), ("DEC", [0])]
    [("RA", [(200 : Int)]), ("DEC", [0]), ("W1", [7])]
    (some ["W1"]) [] (MissingValue.scalar 0) 0 "RA" "DEC" "RA" "DEC" rfl

/-! ## C6: the query-value filler -/

theorem fill_foldl_getCol_not_mem {α : Type} (mask : List Bool) :
    ∀ (vals : List (String × α)) (t : Table α) (c : String),
      c ∉ vals.map Prod.fst →
      (vals.foldl (fun t cv => t.setCol cv.1 (maskedFill (t.getColD cv.1) mask cv.2)) t).getCol c
        = t.getCol c
  | [], _, _, _ => rfl
  | cv :: rest, t, c, h => by
    have hne : c ≠ cv.1 := by
      intro he
      exact h (by simp [he])
    rw [List.foldl_cons]
    rw [fill_foldl_getCol_not_mem mask rest _ c (by
      intro hm
      exact h (by simp [hm]))]
    exact Table.getCol_setCol_ne t _ hne

theorem fill_foldl_getCol_mem {α : Type} (mask : List Bool) :
    ∀ (vals : List (String × α)) (t : Table α) (c : String) (v : α),
      (c, v) ∈ vals → (vals.map Prod.fst).Nodup →
      (∀ p ∈ vals, t.hasCol p.1 = true) →
      (vals.foldl (fun t cv => t.setCol cv.1 (maskedFill (t.getColD cv.1) mask cv.2)) t).getCol c
        = some (maskedFill (t.getColD c) mask v)
  | [], _, _, _, hmem, _, _ => absurd hmem (List.not_mem_nil _)
  | cv :: rest, t, c, v, hmem, hnodup, hkeys => by
    rw [List.foldl_cons]
    rcases List.mem_cons.mp hmem with he | hm
    · have hnotin : c ∉ rest.map Prod.fst := by
        rw [List.map_cons, List.nodup_cons, ← he] at hnodup
        exact hnodup.1
      rw [fill_foldl_getCol_not_mem mask rest _ c hnotin, ← he]
      exact Table.getCol_setCol_self t c _
    · have hne : c ≠ cv.1 := by
        intro he
        have hcm : c ∈ rest.map Prod.fst := List.mem_map.mpr ⟨(c, v), hm, rfl⟩
        rw [List.map_cons, List.nodup_cons] at hnodup
        rw [he] at hcm
        exact hnodup.1 hcm
      have hnd : (rest.map Prod.fst).Nodup := by
        rw [List.map_cons, List.nodup_cons] at hnodup
        exact hnodup.2
      have hkeys2 : ∀ p ∈ rest, (t.setCol cv.1 (maskedFill (t.getColD cv.1) mask cv.2)).hasCol p.1 = true :=
        fun p hp => Table.hasCol_setCol_of cv.1 _ (hkeys p (List.mem_cons_of_mem _ hp))
      rw [fill_foldl_getCol_mem mask rest _ c v hm hnd hkeys2]
      have hgc : (t.setCol cv.1 (maskedFill (t.getColD cv.1) mask cv.2)).getColD c = t.getColD c := by
        unfold Table.getColD
        rw [Table.getCol_setCol_ne t _ hne]
      rw [hgc]

/-- C6: `fill_values_by_query` returns the number of rows matched by the
query mask; when that count is `0` the table is left completely unchanged;
columns not named in `values_to_fill` are never touched; every named column
is overwritten by the masked fill; and the masked fill puts the exact literal
value at every masked row and leaves every other row unchanged. -/
theorem fill_values_by_query_spec {α : Type} (query : Table α → List Bool)
    (t : Table α) (vals : List (String × α))
    (hkeys : ∀ p ∈ vals, t.hasCol p.1 = true)
    (hnodup : (vals.map Prod.fst).Nodup) :
    (fill_values_by_query query t vals).2 = (query t).count true ∧
    ((query t).count true = 0 → (fill_values_by_query query t vals).1 = t) ∧
    (∀ c, c ∉ vals.map Prod.fst →
      (fill_values_by_query query t vals).1.getCol c = t.getCol c) ∧
    ((query t).count true ≠ 0 → ∀ c v, (c, v) ∈ vals →
      (fill_values_by_query query t vals).1.getCol c =
        some (maskedFill (t.getColD c) (query t) v)) ∧
    (∀ (col : List α) (v : α) (i : Nat) (d : α), i < col.length → i < (query t).length →
      (maskedFill col (query t) v).getD i d =
        if (query t).getD i false then v else col.getD i d) := by
  have hmf : ∀ (col : List α) (v : α) (i : Nat) (d : α), i < col.length → i < (query t).length →
      (maskedFill col (query t) v).getD i d =
        if (query t).getD i false then v else col.getD i d := by
    intro col v i d hc hm
    have hz : i < (col.zip (query t)).length := by
      rw [List.length_zip]
      omega
    rw [maskedFill, List.getD_eq_getElem?_getD, List.getElem?_map,
      List.getElem?_eq_getElem hz, List.getElem_zip]
    rw [List.getD_eq_getElem?_getD (query t), List.getElem?_eq_getElem hm]
    rw [List.getD_eq_getElem?_getD col, List.getElem?_eq_getElem hc]
    simp
  simp only [fill_values_by_query]
  split
  next h =>
    refine ⟨rfl, fun h0 => absurd h0 h, fun c hc => ?_, fun _ c v hm => ?_, hmf⟩
    · exact fill_foldl_getCol_not_mem (query t) vals t c hc
    · exact fill_foldl_getCol_mem (query t) vals t c v hm hnodup hkeys
  next h =>
    exact ⟨rfl, fun _ => rfl, fun c _ => rfl, fun hne => absurd hne h, hmf⟩

/-- Witness for C6 at a concrete input: one matched row, one filled column. -/
theorem fill_values_by_query_spec_witness :
    (fill_values_by_query (fun _ => [true, false])
        [("A", [(1 : Int), 2]), ("B", [5, 6])] [("A", 9)]).2 = 1 ∧
    (fill_values_by_query (fun _ => [true, false])
        [("A", [(1 : Int), 2]), ("B", [5, 6])] [("A", 9)]).1.getCol "A" =
      some [9, 2] ∧
    (fill_values_by_query (fun _ => [true, false])
        [("A", [(1 : Int), 2]), ("B", [5, 6])] [("A", 9)]).1.getCol "B" =
      some [5, 6] := by
  have h := fill_values_by_query_spec (fun _ => [true, false])
    [("A", [(1 : Int), 2]), ("B", [5, 6])] [("A", 9)] (by decide) (by decide)
  refine ⟨by rw [h.1]; rfl, ?_, ?_⟩
  · rw [h.2.2.2.1 (by decide) "A" 9 (by decide)]
    decide
  · rw [h.2.2.1 "B" (by decide)]
    decide

/-! ## C7 / C8 / C9: the host resolver -/

theorem resolve_id_list_eq_mapM (cat : HostCatalog) :
    ∀ l : List HostsArg,
      resolve_id_list cat l = (l.mapM (resolve_id cat)).map List.flatten
  | [] => rfl
  | a :: t => by
    rw [resolve_id_list, resolve_id_list_eq_mapM cat t, List.mapM_cons]
    cases hx : resolve_id cat a with
    | error e => rfl
    | ok x =>
      cases hy : t.mapM (resolve_id cat) with
      | error e => rfl
      | ok xs => rfl

/-- C7: `resolve_id` always produces a list (its return type), a numeric
token or numeric string resolves to the single-element list of its integer
value, and a list input resolves to the concatenation, in input order and
without deduplication, of the recursive resolutions of its elements. -/
theorem resolve_id_numeric_and_list_concat (cat : HostCatalog) :
    (∀ n : Int, resolve_id cat (.int n) = .ok [n]) ∧
    (∀ (s : String) (n : Int), pyIntOfString s = some n →
      resolve_id cat (.str s) = .ok [n]) ∧
    (∀ l : List HostsArg,
      resolve_id cat (.list l) = (l.mapM (resolve_id cat)).map List.flatten) := by
  refine ⟨fun n => rfl, fun s n h => ?_, fun l => ?_⟩
  · simp only [resolve_id, h]
  · show resolve_id_list cat l = _
    exact resolve_id_list_eq_mapM cat l

/-- Witness for C7: a numeric string resolves to its integer, and the list
`[12345, "AnaK"]` resolves to `[12345, 61945]` in input order. -/
theorem resolve_id_numeric_and_list_concat_witness :
    resolve_id ⟨[], [("anak", 61945)]⟩ (.str "12345") = .ok [12345] ∧
    resolve_id ⟨[], [("anak", 61945)]⟩ (.list [.int 12345, .str "AnaK"]) =
      .ok [12345, 61945] := by
  have h := resolve_id_numeric_and_list_concat ⟨[], [("anak", 61945)]⟩
  refine ⟨h.2.1 "12345" 12345 (by decide), ?_⟩
  rw [h.2.2 [.int 12345, .str "AnaK"]]
  rfl

theorem pyStripChars_cons {c : Char} {cs : List Char} (h : pyIsSpace c = false) :
    pyStripChars (c :: cs) = c :: (cs.reverse.dropWhile pyIsSpace).reverse := by
  unfold pyStripChars
  rw [List.dropWhile_cons, if_neg (by simp [h]), List.reverse_cons, List.dropWhile_append]
  by_cases he : (cs.reverse.dropWhile pyIsSpace).isEmpty
  · rw [if_pos he, List.dropWhile_cons, if_neg (by simp [h])]
    have h2 : cs.reverse.dropWhile pyIsSpace = [] := by
      simpa [List.isEmpty_iff] using he
    simp [h2]
  · rw [if_neg he]
    simp

theorem pyLowerChar_eq_p_facts {c : Char} (h : pyLowerChar c = 'p') :
    pyIsSpace c = false ∧ (c == '+') = false ∧ (c == '-') = false ∧ isDigitC c = false := by
  refine ⟨?_, ?_, ?_, ?_⟩
  · by_cases hb : pyIsSpace c = true
    · have hb2 : c = ' ' ∨ c = '\t' ∨ c = '\n' ∨ c = '\r' ∨ c = '\x0b' ∨ c = '\x0c' := by
        simpa [pyIsSpace, or_assoc] using hb
      rcases hb2 with h1 | h1 | h1 | h1 | h1 | h1 <;> (subst h1; exact absurd h (by decide))
    · simpa using hb
  · by_cases hb : c = '+'
    · subst hb; exact absurd h (by decide)
    · simp [hb]
  · by_cases hb : c = '-'
    · subst hb; exact absurd h (by decide)
    · simp [hb]
  · by_cases hb : isDigitC c = true
    · have hd : 48 ≤ c.toNat ∧ c.toNat ≤ 57 := by simpa [isDigitC] using hb
      have hlc : pyLowerChar c = c := by
        unfold pyLowerChar
        rw [if_neg]
        omega
      rw [hlc] at h
      subst h
      exact absurd hd (by decide)
    · simpa using hb

theorem pyIntOfString_eq_none_of_head {s : String} {c : Char} {cs : List Char}
    (hdata : s.data = c :: cs)
    (hsp : pyIsSpace c = false) (hplus : (c == '+') = false)
    (hminus : (c == '-') = false) (hdig : isDigitC c = false) :
    pyIntOfString s = none := by
  unfold pyIntOfString
  rw [hdata, pyStripChars_cons hsp]
  simp [hplus, hminus, List.all_cons, hdig]

theorem pyLower_paper1_head {s : String} (h : pyLower s = "paper1") :
    ∃ c cs, s.data = c :: cs ∧ pyLowerChar c = 'p' := by
  have hd : s.data.map pyLowerChar = "paper1".data := congrArg String.data h
  cases hs : s.data with
  | nil => rw [hs] at hd; exact absurd hd (by decide)
  | cons c cs =>
    rw [hs, List.map_cons] at hd
    have hp : ("paper1".data : List Char) = 'p' :: ['a', 'p', 'e', 'r', '1'] := rfl
    rw [hp] at hd
    exact ⟨c, cs, rfl, (List.cons.injEq _ _ _ _ ▸ hd).1⟩

/-- C8: `resolve_id` on any string whose lowercasing is `"paper1"` returns
exactly the concatenation of the hard-coded complete and incomplete paper1
ID sets, in complete-then-incomplete order, a list of length 16. -/
theorem resolve_id_paper1_concat (cat : HostCatalog) (s : String)
    (h : pyLower s = "paper1") :
    resolve_id cat (.str s) = .ok (_paper1_complete_hosts ++ _paper1_incomplete_hosts) ∧
    (_paper1_complete_hosts ++ _paper1_incomplete_hosts).length = 16 := by
  obtain ⟨c, cs, hdata, hc⟩ := pyLower_paper1_head h
  have hfacts := pyLowerChar_eq_p_facts hc
  have hint : pyIntOfString s = none :=
    pyIntOfString_eq_none_of_head hdata hfacts.1 hfacts.2.1 hfacts.2.2.1 hfacts.2.2.2
  refine ⟨?_, by decide⟩
  simp only [resolve_id, hint, h]
  simp

/-- Witness for C8 with the mixed-case token `"Paper1"`. -/
theorem resolve_id_paper1_concat_witness :
    resolve_id ⟨[], []⟩ (.str "Paper1") =
      .ok (_paper1_complete_hosts ++ _paper1_incomplete_hosts) ∧
    (_paper1_complete_hosts ++ _paper1_incomplete_hosts).length = 16 :=
  resolve_id_paper1_concat ⟨[], []⟩ "Paper1" (by decide)

/-- C9: any string token that is not numeric, is none of the recognized
shorthands, and is not a known (lowercased) host name makes `resolve_id`
fail with an error whose message names the (lowercased) unresolvable token;
a list containing such a token propagates the same error to the caller. -/
theorem resolve_id_unrecognized_error (cat : HostCatalog) (s : String)
    (h1 : pyIntOfString s = none)
    (h2 : pyLower s ≠ "all") (h3 : pyLower s ≠ "paper1_complete")
    (h4 : pyLower s ≠ "paper1_incomplete") (h5 : pyLower s ≠ "paper1")
    (h6 : cat.host_name_to_id.find? (fun p => p.1 == pyLower (pyLower s)) = none) :
    resolve_id cat (.str s) = .error ("cannot resolve " ++ pyLower s) ∧
    resolve_id cat (.list [.str s]) = .error ("cannot resolve " ++ pyLower s) := by
  have hmain : resolve_id cat (.str s) = .error ("cannot resolve " ++ pyLower s) := by
    simp only [resolve_id, h1]
    rw [if_neg h2, if_neg h3, if_neg h4, if_neg h5, h6]
  refine ⟨hmain, ?_⟩
  show resolve_id_list cat [.str s] = _
  rw [resolve_id_list, hmain]

/-- Witness for C9 at the concrete token `"NoSuchHost"`. -/
theorem resolve_id_unrecognized_error_witness :
    resolve_id ⟨[], [("anak", 61945)]⟩ (.str "NoSuchHost") =
      .error ("cannot resolve " ++ pyLower "NoSuchHost") ∧
    resolve_id ⟨[], [("anak", 61945)]⟩ (.list [.str "NoSuchHost"]) =
      .error ("cannot resolve " ++ pyLower "NoSuchHost") :=
  resolve_id_unrecognized_error ⟨[], [("anak", 61945)]⟩ "NoSuchHost"
    (by decide) (by decide) (by decide) (by decide) (by decide) (by decide)

/-! ## C3 / C4 / C5: the spectra readers -/

theorem read_generic_spectra_step_conflicted {ρ : Type} (extension : String)
    (table_read : String → Except Unit (List ρ))
    (ensure_dtype_pre cuts_filter : List ρ → List ρ)
    (set_maskname : String → List ρ → List ρ)
    (midprocess : Option (List ρ → Option (List ρ)))
    (output : List (Option (List ρ))) (g : String)
    (hg : containsSub g.data ("conflicted copy").data = true) :
    read_generic_spectra_step extension table_read ensure_dtype_pre cuts_filter
      set_maskname midprocess output g = output := by
  unfold read_generic_spectra_step
  by_cases he : pyEndsWith g extension = false
  · rw [if_pos he]
  · rw [if_neg he, if_pos hg]

/-- C5: for every directory listing made of one file `f` and one file `g`
whose name contains "conflicted copy", the reader's output equals the output
obtained from `f` alone: the conflicted-copy file contributes no rows and,
in particular, introduces no additional failure. -/
theorem read_generic_spectra_conflicted_copy_skipped {ρ : Type}
    (f g : String) (extension : String)
    (table_read : String → Except Unit (List ρ))
    (ensure_dtype_pre cuts_filter : List ρ → List ρ)
    (set_maskname : String → List ρ → List ρ)
    (midprocess : Option (List ρ → Option (List ρ)))
    (set_telname postprocess ensure_dtype_post : List ρ → List ρ)
    (hg : containsSub g.data ("conflicted copy").data = true) :
    read_generic_spectra [f, g] extension table_read ensure_dtype_pre cuts_filter
      set_maskname midprocess set_telname postprocess ensure_dtype_post =
    read_generic_spectra [f] extension table_read ensure_dtype_pre cuts_filter
      set_maskname midprocess set_telname postprocess ensure_dtype_post := by
  unfold read_generic_spectra
  simp only [List.foldl_cons, List.foldl_nil]
  rw [read_generic_spectra_step_conflicted _ _ _ _ _ _ _ _ hg]

/-- Witness for C5: a well-formed `.zlog` file plus a conflicted copy read
the same as the well-formed file alone, and the result is the good file's
rows. -/
theorem read_generic_spectra_conflicted_copy_skipped_witness :
    read_generic_spectra ["a.zlog", "b (conflicted copy).zlog"] ".zlog"
        (fun f => if f == "a.zlog" then .ok [(1 : Nat)] else .error ())
        (fun t => t) (fun t => t) (fun _ t => t) none
        (fun t => t) (fun t => t) (fun t => t) =
      read_generic_spectra ["a.zlog"] ".zlog"
        (fun f => if f == "a.zlog" then .ok [(1 : Nat)] else .error ())
        (fun t => t) (fun t => t) (fun _ t => t) none
        (fun t => t) (fun t => t) (fun t => t) ∧
    read_generic_spectra ["a.zlog"] ".zlog"
        (fun f => if f == "a.zlog" then .ok [(1 : Nat)] else .error ())
        (fun t => t) (fun t => t) (fun _ t => t) none
        (fun t => t) (fun t => t) (fun t => t) = .ok [1] :=
  ⟨read_generic_spectra_conflicted_copy_skipped "a.zlog" "b (conflicted copy).zlog"
      ".zlog" (fun f => if f == "a.zlog" then .ok [(1 : Nat)] else .error ())
      (fun t => t) (fun t => t) (fun _ t => t) none
      (fun t => t) (fun t => t) (fun t => t) (by decide),
   rfl⟩

/-- C3 (code bug): under `read_mmt` with a cutoff, a directory with one file
observed before the cutoff (rows `[1]`, obstime 5) and one observed after it
(rows `[2]`, obstime 20, cutoff 10), the reader does NOT drop the late file
and return the early file's rows — the late file's `midprocess` returns
`None`, the `None` is appended to the stack list, and `vstack` raises.
Second conjunct: removing the late file yields the expected `.ok [1]`. -/
theorem read_mmt_late_file_poisons_vstack :
    read_mmt ["a.zlog", "b.zlog"]
        (fun f => if f == "a.zlog" then .ok [(1 : Nat)]
          else if f == "b.zlog" then .ok [2] else .error ())
        (fun t => t) (fun t => t) (fun _ t => t)
        (fun t => if t == [1] then .ok (((), 5) : Unit × Int) else .ok ((), 20))
        (fun _ t => t) (fun _ t => t) (some 10)
        (fun t => t) (fun t => t) (fun t => t) = .error .notATable ∧
    read_mmt ["a.zlog"]
        (fun f => if f == "a.zlog" then .ok [(1 : Nat)]
          else if f == "b.zlog" then .ok [2] else .error ())
        (fun t => t) (fun t => t) (fun _ t => t)
        (fun t => if t == [1] then .ok (((), 5) : Unit × Int) else .ok ((), 20))
        (fun _ t => t) (fun _ t => t) (some 10)
        (fun t => t) (fun t => t) (fun t => t) = .ok [1] :=
  ⟨rfl, rfl⟩

/-- C4 (code bug): the reader does not fail exactly when zero files
contribute rows.  First conjunct: a directory where `x.zlog` contributes rows
`[7]` still fails (with the stacking `TypeError`, not a `ReadError`) because
the late file `y.zlog` put a `None` in the stack list.  Second conjunct: with
zero contributing rows (the sole file is unreadable) the reader does fail, as
the claim says, via `vstack` on an empty list. -/
theorem read_generic_spectra_error_not_iff_zero_rows :
    read_mmt ["x.zlog", "y.zlog"]
        (fun f => if f == "x.zlog" then .ok [(7 : Nat)]
          else if f == "y.zlog" then .ok [8] else .error ())
        (fun t => t) (fun t => t) (fun _ t => t)
        (fun t => if t == [7] then .ok (((), 3) : Unit × Int) else .ok ((), 30))
        (fun _ t => t) (fun _ t => t) (some 10)
        (fun t => t) (fun t => t) (fun t => t) = .error .notATable ∧
    read_generic_spectra ["bad.zlog"] ".zlog"
        (fun _ => (.error () : Except Unit (List Nat)))
        (fun t => t) (fun t => t) (fun _ t => t) none
        (fun t => t) (fun t => t) (fun t => t) = .error .noValues :=
  ⟨rfl, rfl⟩

/-! ## C10: string-pipeline lemmas -/

theorem isPrefixOf_eq_true_iff : ∀ (l s : List Char), l.isPrefixOf s = true ↔ ∃ t, s = l ++ t
  | [], s => by simp [List.isPrefixOf]
  | a :: as, [] => by simp [List.isPrefixOf]
  | a :: as, b :: bs => by
    simp only [List.isPrefixOf, Bool.and_eq_true, beq_iff_eq]
    constructor
    · rintro ⟨rfl, h⟩
      obtain ⟨t, rfl⟩ := (isPrefixOf_eq_true_iff as bs).mp h
      exact ⟨t, rfl⟩
    · rintro ⟨t, ht⟩
      rw [List.cons_append] at ht
      obtain ⟨rfl, rfl⟩ := List.cons.injEq .. ▸ ht
      exact ⟨rfl, (isPrefixOf_eq_true_iff as _).mpr ⟨t, rfl⟩⟩

theorem isSuffixOf_eq_true_iff (l s : List Char) :
    l.isSuffixOf s = true ↔ ∃ t, s = t ++ l := by
  rw [List.isSuffixOf, isPrefixOf_eq_true_iff]
  constructor
  · rintro ⟨t, ht⟩
    refine ⟨t.reverse, ?_⟩
    have := congrArg List.reverse ht
    simpa using this
  · rintro ⟨t, rfl⟩
    exact ⟨t.reverse, by simp⟩

theorem containsSub_eq_true_iff : ∀ (s pat : List Char),
    containsSub s pat = true ↔ ∃ u v, s = u ++ pat ++ v
  | [], pat => by
    rw [containsSub]
    constructor
    · intro h
      refine ⟨[], [], ?_⟩
      have : pat = [] := by simpa [List.isEmpty_iff] using h
      simp [this]
    · rintro ⟨u, v, h⟩
      rw [List.isEmpty_iff]
      rcases List.append_eq_nil.mp h.symm with ⟨h1, h2⟩
      rcases List.append_eq_nil.mp h1 with ⟨-, h3⟩
      exact h3
  | c :: cs, pat => by
    rw [containsSub, Bool.or_eq_true]
    constructor
    · rintro (h | h)
      · obtain ⟨t, ht⟩ := (isPrefixOf_eq_true_iff pat _).mp h
        exact ⟨[], t, by simpa using ht⟩
      · obtain ⟨u, v, hv⟩ := (containsSub_eq_true_iff cs pat).mp h
        exact ⟨c :: u, v, by simp [hv]⟩
    · rintro ⟨u, v, huv⟩
      cases u with
      | nil =>
        left
        exact (isPrefixOf_eq_true_iff pat _).mpr ⟨v, by simpa using huv⟩
      | cons d u =>
        right
        rw [List.cons_append, List.cons_append] at huv
        obtain ⟨-, h2⟩ := List.cons.injEq .. ▸ huv
        exact (containsSub_eq_true_iff cs pat).mpr ⟨u, v, by simpa using h2⟩

theorem spanFree_spec {x pat : List Char} (h : spanFree x pat = true) :
    ∀ k, 0 < k → k < pat.length → (pat.take k).isSuffixOf x = false := by
  intro k hk hklen
  rw [spanFree, List.all_eq_true] at h
  have := h k (List.mem_range.mpr hklen)
  rcases Bool.or_eq_true .. ▸ this with h1 | h1
  · exact absurd (by simpa using h1) (Nat.pos_iff_ne_zero.mp hk)
  · simpa using h1

theorem take_isSuffixOf_eq_false_of_head {p : Char} {ps x : List Char}
    (h : p ∉ x) {k : Nat} (hk : 0 < k) :
    ((p :: ps).take k).isSuffixOf x = false := by
  cases k with
  | zero => exact absurd hk (by simp)
  | succ k =>
    rw [List.take_succ_cons]
    by_cases hs : (p :: ps.take k).isSuffixOf x = true
    · obtain ⟨t, rfl⟩ := (isSuffixOf_eq_true_iff _ _).mp hs
      exact absurd (by simp) h
    · exact Bool.eq_false_iff.mpr hs

theorem containsSub_eq_false_of_head {p : Char} {ps : List Char} :
    ∀ {x : List Char}, p ∉ x → containsSub x (p :: ps) = false
  | [], _ => rfl
  | c :: cs, h => by
    rw [containsSub]
    have hpc : (p == c) = false := by
      simp only [beq_eq_false_iff_ne, ne_eq]
      intro he
      exact h (he ▸ List.mem_cons_self c cs)
    rw [List.isPrefixOf, hpc]
    simp only [Bool.false_and, Bool.false_or]
    exact containsSub_eq_false_of_head (fun hm => h (List.mem_cons_of_mem c hm))

theorem floatChar_ne_comma {c : Char} (h : floatChar c = true) : c ≠ ',' := by
  intro he
  subst he
  exact absurd h (by decide)

theorem floatChar_ne_upper_i {c : Char} (h : floatChar c = true) : c ≠ 'I' := by
  intro he
  subst he
  exact absurd h (by decide)

theorem floatChar_not_ws {c : Char} (h : floatChar c = true) : pyIsSpace c = false := by
  by_cases hb : pyIsSpace c = true
  · have hb2 : c = ' ' ∨ c = '\t' ∨ c = '\n' ∨ c = '\r' ∨ c = '\x0b' ∨ c = '\x0c' := by
      simpa [pyIsSpace, or_assoc] using hb
    rcases hb2 with h1 | h1 | h1 | h1 | h1 | h1 <;> (subst h1; exact absurd h (by decide))
  · simpa using hb

theorem isAsciiLetter_ne_comma {c : Char} (h : isAsciiLetter c = true) : c ≠ ',' := by
  intro he
  subst he
  exact absurd h (by decide)

theorem isAsciiLetter_not_ws {c : Char} (h : isAsciiLetter c = true) : pyIsSpace c = false := by
  by_cases hb : pyIsSpace c = true
  · have hb2 : c = ' ' ∨ c = '\t' ∨ c = '\n' ∨ c = '\r' ∨ c = '\x0b' ∨ c = '\x0c' := by
      simpa [pyIsSpace, or_assoc] using hb
    rcases hb2 with h1 | h1 | h1 | h1 | h1 | h1 <;> (subst h1; exact absurd h (by decide))
  · simpa using hb

theorem floatLike_props {s : String} (h : floatLike s = true) :
    s.data ≠ [] ∧ (∀ c ∈ s.data, pyIsSpace c = false) ∧ ',' ∉ s.data ∧ 'I' ∉ s.data := by
  rw [floatLike, Bool.and_eq_true] at h
  obtain ⟨h1, h2⟩ := h
  rw [List.all_eq_true] at h2
  refine ⟨by simpa [List.isEmpty_iff] using h1, ?_, ?_, ?_⟩
  · exact fun c hc => floatChar_not_ws (h2 c hc)
  · intro hm
    exact floatChar_ne_comma (h2 _ hm) rfl
  · intro hm
    exact floatChar_ne_upper_i (h2 _ hm) rfl

theorem pfx_of_append_long {pat x y : List Char}
    (h : pat.isPrefixOf (x ++ y) = true) (hlen : pat.length ≤ x.length) :
    pat.isPrefixOf x = true := by
  obtain ⟨t, ht⟩ := (isPrefixOf_eq_true_iff _ _).mp h
  have hx : pat = x.take pat.length := by
    calc pat = (pat ++ t).take pat.length := by rw [List.take_left]
    _ = (x ++ y).take pat.length := by rw [ht]
    _ = x.take pat.length := List.take_append_of_le_length hlen
  refine (isPrefixOf_eq_true_iff _ _).mpr ⟨x.drop pat.length, ?_⟩
  calc x = x.take pat.length ++ x.drop pat.length := (List.take_append_drop _ x).symm
  _ = pat ++ x.drop pat.length := by rw [← hx]

theorem pfx_of_append_short {pat x y : List Char}
    (h : pat.isPrefixOf (x ++ y) = true) (hlen : x.length < pat.length) :
    pat.take x.length = x ∧ (pat.drop x.length).isPrefixOf y = true := by
  obtain ⟨t, ht⟩ := (isPrefixOf_eq_true_iff _ _).mp h
  have h1 : pat.take x.length = x := by
    calc pat.take x.length = (pat ++ t).take x.length :=
        (List.take_append_of_le_length (Nat.le_of_lt hlen)).symm
    _ = (x ++ y).take x.length := by rw [ht]
    _ = x := List.take_left x y
  refine ⟨h1, (isPrefixOf_eq_true_iff _ _).mpr ⟨t, ?_⟩⟩
  have h2 : y = (pat ++ t).drop x.length := by
    rw [← ht, List.drop_left]
  rw [h2, List.drop_append_of_le_length (Nat.le_of_lt hlen)]

theorem isSuffixOf_cons_lift {l cs : List Char} (c : Char)
    (h : l.isSuffixOf cs = true) : l.isSuffixOf (c :: cs) = true := by
  obtain ⟨t, rfl⟩ := (isSuffixOf_eq_true_iff _ _).mp h
  exact (isSuffixOf_eq_true_iff _ _).mpr ⟨c :: t, rfl⟩

theorem isSuffixOf_drop_lift {l z : List Char} {m : Nat}
    (h : l.isSuffixOf (z.drop m) = true) : l.isSuffixOf z = true := by
  obtain ⟨t, ht⟩ := (isSuffixOf_eq_true_iff _ _).mp h
  refine (isSuffixOf_eq_true_iff _ _).mpr ⟨z.take m ++ t, ?_⟩
  rw [List.append_assoc, ← ht]
  exact (List.take_append_drop _ z).symm

theorem isSuffixOf_self (l : List Char) : l.isSuffixOf l = true :=
  (isSuffixOf_eq_true_iff _ _).mpr ⟨[], rfl⟩

theorem containsSub_append_cases {pat : List Char} :
    ∀ (x y : List Char), containsSub (x ++ y) pat = true →
      containsSub x pat = true ∨ containsSub y pat = true ∨
      ∃ k, 0 < k ∧ k < pat.length ∧ (pat.take k).isSuffixOf x = true ∧
        (pat.drop k).isPrefixOf y = true
  | [], y, h => Or.inr (Or.inl h)
  | c :: cs, y, h => by
    rw [List.cons_append, containsSub, Bool.or_eq_true] at h
    rcases h with h | h
    · rw [← List.cons_append] at h
      by_cases hlen : pat.length ≤ (c :: cs).length
      · exact Or.inl (by rw [containsSub, pfx_of_append_long h hlen]; simp)
      · obtain ⟨h1, h2⟩ := pfx_of_append_short h (Nat.lt_of_not_le hlen)
        refine Or.inr (Or.inr ⟨(c :: cs).length, by simp, Nat.lt_of_not_le hlen, ?_, h2⟩)
        rw [h1]
        exact isSuffixOf_self _
    · rcases containsSub_append_cases cs y h with h1 | h1 | ⟨k, hk, hklen, hsfx, hpfx⟩
      · exact Or.inl (by rw [containsSub, h1]; simp)
      · exact Or.inr (Or.inl h1)
      · exact Or.inr (Or.inr ⟨k, hk, hklen, isSuffixOf_cons_lift c hsfx, hpfx⟩)

theorem containsSub_append_eq_false {pat : List Char} {x y : List Char}
    (hx : containsSub x pat = false)
    (hspan : ∀ k, 0 < k → k < pat.length → (pat.take k).isSuffixOf x = false)
    (hy : containsSub y pat = false) :
    containsSub (x ++ y) pat = false := by
  by_cases h : containsSub (x ++ y) pat = true
  · rcases containsSub_append_cases x y h with h1 | h1 | ⟨k, hk, hklen, hsfx, -⟩
    · rw [hx] at h1; exact absurd h1 (by simp)
    · rw [hy] at h1; exact absurd h1 (by simp)
    · rw [hspan k hk hklen] at hsfx; exact absurd hsfx (by simp)
  · exact Bool.eq_false_iff.mpr h

theorem endStateWs_append : ∀ (xs ys : List Char) (b : Bool),
    endStateWs (xs ++ ys) b = endStateWs ys (endStateWs xs b)
  | [], _, _ => rfl
  | c :: cs, ys, b => by
    show endStateWs (cs ++ ys) (pyIsSpace c) = endStateWs ys (endStateWs cs (pyIsSpace c))
    exact endStateWs_append cs ys _

theorem endStateWs_nonws : ∀ (xs : List Char), (∀ c ∈ xs, pyIsSpace c = false) →
    xs ≠ [] → ∀ b : Bool, endStateWs xs b = false
  | [], _, h, _ => absurd rfl h
  | c :: cs, h, _, b => by
    show endStateWs cs (pyIsSpace c) = false
    cases hcs : cs with
    | nil => show pyIsSpace c = false; exact h c (by simp)
    | cons d ds =>
      exact endStateWs_nonws (d :: ds)
        (fun x hx => h x (by rw [hcs]; exact List.mem_cons_of_mem c hx)) (by simp) _

theorem collapseWsAux_append : ∀ (xs ys : List Char) (b : Bool),
    collapseWsAux (xs ++ ys) b = collapseWsAux xs b ++ collapseWsAux ys (endStateWs xs b)
  | [], _, _ => rfl
  | c :: cs, ys, b => by
    cases hc : pyIsSpace c with
    | true =>
      cases b with
      | true =>
        simp only [List.cons_append, collapseWsAux, endStateWs, hc, if_true]
        exact collapseWsAux_append cs ys true
      | false =>
        simp only [List.cons_append, collapseWsAux, endStateWs, hc, if_true, if_false,
          List.append_eq]
        rw [collapseWsAux_append cs ys true]
        simp
    | false =>
      simp only [List.cons_append, collapseWsAux, endStateWs, hc, Bool.false_eq_true,
        if_false, List.append_eq]
      rw [collapseWsAux_append cs ys false]

theorem collapseWsAux_nonws : ∀ (xs : List Char), (∀ c ∈ xs, pyIsSpace c = false) →
    ∀ b : Bool, collapseWsAux xs b = xs
  | [], _, _ => rfl
  | c :: cs, h, b => by
    have hc : pyIsSpace c = false := h c (by simp)
    simp only [collapseWsAux, hc, Bool.false_eq_true, if_false]
    rw [collapseWsAux_nonws cs (fun x hx => h x (List.mem_cons_of_mem c hx)) false]

theorem lstrip_append {x : List Char} (r : List Char)
    (hx : x.dropWhile pyIsSpace ≠ []) :
    (x ++ r).dropWhile pyIsSpace = x.dropWhile pyIsSpace ++ r := by
  rw [List.dropWhile_append, if_neg]
  simpa [List.isEmpty_iff] using hx

theorem rstrip_append (r : List Char) {z : List Char}
    (hz : z.reverse.dropWhile pyIsSpace ≠ []) :
    ((r ++ z).reverse.dropWhile pyIsSpace).reverse =
      r ++ (z.reverse.dropWhile pyIsSpace).reverse := by
  rw [List.reverse_append, List.dropWhile_append,
    if_neg (by simpa [List.isEmpty_iff] using hz)]
  simp

theorem listReplaceGo_skip (pat repl : List Char) :
    ∀ (z : List Char) (s : Nat),
      listReplaceGo pat repl z s = listReplaceGo pat repl (z.drop s) 0
  | [], s => by cases s <;> rfl
  | _ :: _, 0 => rfl
  | c :: cs, s + 1 => by
    show listReplaceGo pat repl cs s = _
    rw [List.drop_succ_cons]
    exact listReplaceGo_skip pat repl cs s

theorem listReplaceGo_head_not_mem {p : Char} {ps repl : List Char} :
    ∀ {x : List Char}, p ∉ x → listReplaceGo (p :: ps) repl x 0 = x
  | [], _ => rfl
  | c :: cs, h => by
    have hpc : (p == c) = false := by
      simp only [beq_eq_false_iff_ne, ne_eq]
      intro he
      exact h (he ▸ List.mem_cons_self c cs)
    have hpre : (p :: ps).isPrefixOf (c :: cs) = false := by
      rw [List.isPrefixOf, hpc, Bool.false_and]
    rw [listReplaceGo, if_neg (by simp [hpre])]
    rw [listReplaceGo_head_not_mem (fun hm => h (List.mem_cons_of_mem c hm))]

theorem listReplaceGo_append (pat repl : List Char) (hpat : pat ≠ []) :
    ∀ (n : Nat) (x y : List Char), x.length ≤ n →
      (∀ k, 0 < k → k < pat.length → (pat.take k).isSuffixOf x = false) →
      listReplaceGo pat repl (x ++ y) 0 =
        listReplaceGo pat repl x 0 ++ listReplaceGo pat repl y 0
  | 0, x, y, hn, _ => by
    have hx : x = [] := List.eq_nil_of_length_eq_zero (Nat.le_zero.mp hn)
    subst hx
    rfl
  | n + 1, [], y, _, _ => rfl
  | n + 1, c :: cs, y, hn, hspan => by
    by_cases hq : pat.isPrefixOf (c :: cs) = true
    · have hlen : pat.length ≤ cs.length + 1 := by
        obtain ⟨t, ht⟩ := (isPrefixOf_eq_true_iff _ _).mp hq
        have := congrArg List.length ht
        simp at this
        omega
      have hr : pat.isPrefixOf ((c :: cs) ++ y) = true := by
        obtain ⟨t, ht⟩ := (isPrefixOf_eq_true_iff _ _).mp hq
        exact (isPrefixOf_eq_true_iff _ _).mpr ⟨t ++ y, by rw [ht, List.append_assoc]⟩
      rw [List.cons_append, listReplaceGo, if_pos ⟨hpat, by rw [← List.cons_append]; exact hr⟩]
      rw [listReplaceGo, if_pos ⟨hpat, hq⟩]
      rw [listReplaceGo_skip pat repl (cs ++ y) (pat.length - 1),
        listReplaceGo_skip pat repl cs (pat.length - 1),
        List.drop_append_of_le_length (by omega)]
      have hspan2 : ∀ k, 0 < k → k < pat.length →
          (pat.take k).isSuffixOf (cs.drop (pat.length - 1)) = false := by
        intro k hk hklen
        by_cases hs : (pat.take k).isSuffixOf (cs.drop (pat.length - 1)) = true
        · have := isSuffixOf_cons_lift c (isSuffixOf_drop_lift hs)
          rw [hspan k hk hklen] at this
          exact absurd this (by simp)
        · exact Bool.eq_false_iff.mpr hs
      have hn2 : cs.length ≤ n := by simpa using hn
      rw [listReplaceGo_append pat repl hpat n (cs.drop (pat.length - 1)) y
        (by simp only [List.length_drop]; omega) hspan2]
      rw [List.append_assoc]
    · have hr : pat.isPrefixOf ((c :: cs) ++ y) = false := by
        by_cases hrt : pat.isPrefixOf ((c :: cs) ++ y) = true
        · by_cases hlen : pat.length ≤ (c :: cs).length
          · rw [pfx_of_append_long hrt hlen] at hq
            exact absurd rfl hq
          · obtain ⟨h1, -⟩ := pfx_of_append_short hrt (Nat.lt_of_not_le hlen)
            have hsfx : (pat.take (c :: cs).length).isSuffixOf (c :: cs) = true := by
              rw [h1]
              exact isSuffixOf_self _
            rw [hspan (c :: cs).length (by simp) (Nat.lt_of_not_le hlen)] at hsfx
            exact absurd hsfx (by simp)
        · exact Bool.eq_false_iff.mpr hrt
      rw [List.cons_append, listReplaceGo, if_neg (by
        simp only [List.cons_append] at hr
        intro hand
        rw [hand.2] at hr
        exact absurd hr (by simp))]
      rw [listReplaceGo, if_neg (by
        intro hand
        exact hq hand.2)]
      have hspan2 : ∀ k, 0 < k → k < pat.length → (pat.take k).isSuffixOf cs = false := by
        intro k hk hklen
        by_cases hs : (pat.take k).isSuffixOf cs = true
        · have := isSuffixOf_cons_lift c hs
          rw [hspan k hk hklen] at this
          exact absurd this (by simp)
        · exact Bool.eq_false_iff.mpr hs
      rw [listReplaceGo_append pat repl hpat n cs y (by simpa using hn) hspan2]
      rfl

theorem span_pair {a b : Char} {x : List Char}
    (h : ([a] : List Char).isSuffixOf x = false) :
    ∀ k, 0 < k → k < ([a, b] : List Char).length →
      (([a, b] : List Char).take k).isSuffixOf x = false := by
  intro k hk hklen
  have hk1 : k = 1 := by
    simp only [List.length_cons, List.length_nil] at hklen
    omega
  subst hk1
  simpa using h

theorem span_of_head {p : Char} {ps x : List Char} (h : p ∉ x) :
    ∀ k, 0 < k → k < (p :: ps).length → ((p :: ps).take k).isSuffixOf x = false :=
  fun _ hk _ => take_isSuffixOf_eq_false_of_head h hk

/-- The whole query pipeline up to (and including) the `re.sub(', ', ',', ·)`
pass, decomposed chunk by chunk: the numeric fields and the table name pass
through whitespace collapsing, stripping and comma-replacement untouched,
while the three literal template blocks are transformed independently. -/
theorem sdss_comma_pass (ra dec rm nm : String)
    (hra : floatLike ra = true) (hdec : floatLike dec = true) (hrm : floatLike rm = true)
    (hnmW : ∀ c ∈ nm.data, pyIsSpace c = false)
    (hnmC : ',' ∉ nm.data) :
    listReplaceGo (", ").data (",").data
        (pyStripChars (collapseWsAux (_query_template ra dec rm nm).data false)) 0 =
      listReplaceGo (", ").data (",").data
          (List.dropWhile pyIsSpace (collapseWsAux _sdss_select_block.data false)) 0 ++
        (ra.data ++ ((",").data ++ (dec.data ++ ((",").data ++ (rm.data ++
          (listReplaceGo (", ").data (",").data
              (collapseWsAux _sdss_from_to_into.data false) 0 ++
            (nm.data ++
              listReplaceGo (", ").data (",").data
                (((collapseWsAux _sdss_tail_block.data false).reverse.dropWhile
                  pyIsSpace)).reverse 0))))))) := by
  obtain ⟨hraN, hraW, hraC, -⟩ := floatLike_props hra
  obtain ⟨hdecN, hdecW, hdecC, -⟩ := floatLike_props hdec
  obtain ⟨hrmN, hrmW, hrmC, -⟩ := floatLike_props hrm
  have h1 : (_query_template ra dec rm nm).data =
      _sdss_select_block.data ++ (ra.data ++ ((", ").data ++ (dec.data ++ ((", ").data ++
        (rm.data ++ (_sdss_from_to_into.data ++ (nm.data ++ _sdss_tail_block.data))))))) := by
    simp [_query_template, List.append_assoc]
  rw [h1]
  rw [collapseWsAux_append]
  rw [(by decide : endStateWs _sdss_select_block.data false = false)]
  rw [collapseWsAux_append]
  rw [endStateWs_nonws ra.data hraW hraN false, collapseWsAux_nonws ra.data hraW false]
  rw [collapseWsAux_append]
  rw [(by decide : endStateWs (", ").data false = true),
    (by decide : collapseWsAux (", ").data false = (", ").data)]
  rw [collapseWsAux_append]
  rw [endStateWs_nonws dec.data hdecW hdecN true, collapseWsAux_nonws dec.data hdecW true]
  rw [collapseWsAux_append]
  rw [(by decide : endStateWs (", ").data false = true),
    (by decide : collapseWsAux (", ").data false = (", ").data)]
  rw [collapseWsAux_append]
  rw [endStateWs_nonws rm.data hrmW hrmN true, collapseWsAux_nonws rm.data hrmW true]
  rw [collapseWsAux_append]
  rw [(by decide : endStateWs _sdss_from_to_into.data false = false)]
  rw [collapseWsAux_append]
  have hnmState : endStateWs nm.data false = false := by
    cases hnm : nm.data with
    | nil => rfl
    | cons c cs =>
      exact endStateWs_nonws (c :: cs) (fun x hx => hnmW x (hnm ▸ hx)) (by simp) false
  rw [hnmState, collapseWsAux_nonws nm.data hnmW false]
  unfold pyStripChars
  rw [lstrip_append _ (by decide :
    List.dropWhile pyIsSpace (collapseWsAux _sdss_select_block.data false) ≠ [])]
  simp only [← List.append_assoc]
  rw [rstrip_append _ (by decide :
    (collapseWsAux _sdss_tail_block.data false).reverse.dropWhile pyIsSpace ≠ [])]
  simp only [List.append_assoc]
  rw [listReplaceGo_append (", ").data (",").data (by decide) _ _ _ le_rfl
    (span_pair (by decide))]
  rw [listReplaceGo_append (", ").data (",").data (by decide) _ _ _ le_rfl
    (span_of_head hraC)]
  rw [listReplaceGo_head_not_mem hraC]
  rw [listReplaceGo_append (", ").data (",").data (by decide) _ _ _ le_rfl
    (span_pair (by decide : ([','] : List Char).isSuffixOf (", ").data = false))]
  rw [(by decide : listReplaceGo (", ").data (",").data (", ").data 0 = (",").data)]
  rw [listReplaceGo_append (", ").data (",").data (by decide) _ _ _ le_rfl
    (span_of_head hdecC)]
  rw [listReplaceGo_head_not_mem hdecC]
  rw [listReplaceGo_append (", ").data (",").data (by decide) _ _ _ le_rfl
    (span_pair (by decide : ([','] : List Char).isSuffixOf (", ").data = false))]
  rw [(by decide : listReplaceGo (", ").data (",").data (", ").data 0 = (",").data)]
  rw [listReplaceGo_append (", ").data (",").data (by decide) _ _ _ le_rfl
    (span_of_head hrmC)]
  rw [listReplaceGo_head_not_mem hrmC]
  rw [listReplaceGo_append (", ").data (",").data (by decide) _ _ _ le_rfl
    (span_pair (by decide :
      ([','] : List Char).isSuffixOf (collapseWsAux _sdss_from_to_into.data false) = false))]
  rw [listReplaceGo_append (", ").data (",").data (by decide) _ _ _ le_rfl
    (span_of_head hnmC)]
  rw [listReplaceGo_head_not_mem hnmC]

theorem string_mk_data (l : List Char) : (String.mk l).data = l := rfl

theorem pyReplace_data (s pat repl : String) :
    (pyReplace s pat repl).data = listReplaceGo pat.data repl.data s.data 0 := rfl

theorem pyStrip_data (s : String) : (pyStrip s).data = pyStripChars s.data := rfl

theorem collapseWs_data (s : String) : (collapseWs s).data = collapseWsAux s.data false := rfl

theorem construct_query_some_eq (ra dec rm nm : String) :
    construct_query ra dec rm (some nm) =
      pyReplace (pyStrip (collapseWs (_query_template ra dec rm nm))) ", " "," := rfl

theorem construct_query_none_eq (ra dec rm : String) :
    construct_query ra dec rm none =
      pyReplace
        (pyReplace (pyStrip (collapseWs (_query_template ra dec rm "TO_BE_REMOVED"))) ", " ",")
        ("INTO mydb." ++ "TO_BE_REMOVED" ++ " ") "" := rfl

set_option maxHeartbeats 4000000

/-- C10: the staging table name `SdssQuery.__init__` embeds in the generated
SQL consists only of ASCII letters — every non-letter character of the
supplied name is stripped before templating — and such a letters-only name
appears in the query inside an `INTO mydb.<name> ` clause; when
`db_table_name` is `None` in `construct_query`, the generated query contains
no `INTO mydb.` clause at all. -/
theorem sdss_query_table_name_letters_and_into_clause :
    (∀ (db_table_name : Option String) (random4 : String),
      (sdss_query_init_db_table_name db_table_name random4).data.all isAsciiLetter = true) ∧
    (∀ ra dec r_arcmin nm : String, floatLike ra = true → floatLike dec = true →
      floatLike r_arcmin = true → nm.data.all isAsciiLetter = true →
      containsSub (construct_query ra dec r_arcmin (some nm)).data
        ("INTO mydb." ++ nm ++ " ").data = true) ∧
    (∀ ra dec r_arcmin : String, floatLike ra = true → floatLike dec = true →
      floatLike r_arcmin = true →
      containsSub (construct_query ra dec r_arcmin none).data ("INTO mydb.").data = false) := by
  refine ⟨?_, ?_, ?_⟩
  · intro arg rnd
    show ((String.mk _).data.all isAsciiLetter) = true
    rw [string_mk_data, List.all_eq_true]
    intro c hc
    exact (List.mem_filter.mp hc).2
  · intro ra dec rm nm hra hdec hrm hnm
    have hnmW : ∀ c ∈ nm.data, pyIsSpace c = false := by
      rw [List.all_eq_true] at hnm
      exact fun c hc => isAsciiLetter_not_ws (hnm c hc)
    have hnmC : ',' ∉ nm.data := by
      rw [List.all_eq_true] at hnm
      intro hm
      exact isAsciiLetter_ne_comma (hnm _ hm) rfl
    have h0 : (construct_query ra dec rm (some nm)).data =
        listReplaceGo (", ").data (",").data
          (pyStripChars (collapseWsAux (_query_template ra dec rm nm).data false)) 0 := by
      rw [construct_query_some_eq, pyReplace_data, pyStrip_data, collapseWs_data]
    rw [h0, sdss_comma_pass ra dec rm nm hra hdec hrm hnmW hnmC]
    obtain ⟨w, hw⟩ := (isSuffixOf_eq_true_iff _ _).mp (by decide :
      ("INTO mydb.").data.isSuffixOf
        (listReplaceGo (", ").data (",").data
          (collapseWsAux _sdss_from_to_into.data false) 0) = true)
    have hh : (listReplaceGo (", ").data (",").data
        (((collapseWsAux _sdss_tail_block.data false).reverse.dropWhile
          pyIsSpace)).reverse 0).head? = some ' ' := by decide
    obtain ⟨y, hy⟩ : ∃ y, listReplaceGo (", ").data (",").data
        (((collapseWsAux _sdss_tail_block.data false).reverse.dropWhile
          pyIsSpace)).reverse 0 = ' ' :: y := by
      cases hK : listReplaceGo (", ").data (",").data
          (((collapseWsAux _sdss_tail_block.data false).reverse.dropWhile
            pyIsSpace)).reverse 0 with
      | nil => rw [hK] at hh; exact absurd hh (by simp)
      | cons c yy =>
        rw [hK] at hh
        simp only [List.head?_cons, Option.some.injEq] at hh
        exact ⟨yy, by rw [hh]⟩
    rw [hw, hy]
    have hpd : ("INTO mydb." ++ nm ++ " ").data =
        ("INTO mydb.").data ++ (nm.data ++ [' ']) := by
      simp
    rw [hpd]
    refine (containsSub_eq_true_iff _ _).mpr
      ⟨listReplaceGo (", ").data (",").data
          (List.dropWhile pyIsSpace (collapseWsAux _sdss_select_block.data false)) 0 ++
        (ra.data ++ ((",").data ++ (dec.data ++ ((",").data ++ (rm.data ++ w))))), y, ?_⟩
    simp only [List.append_assoc, List.cons_append, List.singleton_append, List.nil_append]
  · intro ra dec rm hra hdec hrm
    obtain ⟨hraN, hraW, hraC, hraI⟩ := floatLike_props hra
    obtain ⟨hdecN, hdecW, hdecC, hdecI⟩ := floatLike_props hdec
    obtain ⟨hrmN, hrmW, hrmC, hrmI⟩ := floatLike_props hrm
    have h0 : (construct_query ra dec rm none).data =
        listReplaceGo ("INTO mydb.TO_BE_REMOVED ").data ([] : List Char)
          (listReplaceGo (", ").data (",").data
            (pyStripChars
              (collapseWsAux (_query_template ra dec rm "TO_BE_REMOVED").data false)) 0) 0 := by
      rw [construct_query_none_eq, pyReplace_data, pyReplace_data, pyStrip_data, collapseWs_data]
      rfl
    rw [h0, sdss_comma_pass ra dec rm "TO_BE_REMOVED" hra hdec hrm (by decide) (by decide)]
    rw [listReplaceGo_append ("INTO mydb.TO_BE_REMOVED ").data [] (by decide)
      _ _ _ le_rfl (spanFree_spec (by decide))]
    rw [listReplaceGo_append ("INTO mydb.TO_BE_REMOVED ").data [] (by decide)
      _ _ _ le_rfl (span_of_head hraI)]
    rw [listReplaceGo_head_not_mem hraI]
    rw [listReplaceGo_append ("INTO mydb.TO_BE_REMOVED ").data [] (by decide)
      _ _ _ le_rfl (span_of_head (show ('I' : Char) ∉ (",").data by decide))]
    rw [listReplaceGo_head_not_mem (show ('I' : Char) ∉ (",").data by decide)]
    rw [listReplaceGo_append ("INTO mydb.TO_BE_REMOVED ").data [] (by decide)
      _ _ _ le_rfl (span_of_head hdecI)]
    rw [listReplaceGo_head_not_mem hdecI]
    rw [listReplaceGo_append ("INTO mydb.TO_BE_REMOVED ").data [] (by decide)
      _ _ _ le_rfl (span_of_head (show ('I' : Char) ∉ (",").data by decide))]
    rw [listReplaceGo_head_not_mem (show ('I' : Char) ∉ (",").data by decide)]
    rw [listReplaceGo_append ("INTO mydb.TO_BE_REMOVED ").data [] (by decide)
      _ _ _ le_rfl (span_of_head hrmI)]
    rw [listReplaceGo_head_not_mem hrmI]
    refine containsSub_append_eq_false (by decide) (spanFree_spec (by decide)) ?_
    refine containsSub_append_eq_false (containsSub_eq_false_of_head hraI)
      (span_of_head hraI) ?_
    refine containsSub_append_eq_false
      (containsSub_eq_false_of_head (show ('I' : Char) ∉ (",").data by decide))
      (span_of_head (show ('I' : Char) ∉ (",").data by decide)) ?_
    refine containsSub_append_eq_false (containsSub_eq_false_of_head hdecI)
      (span_of_head hdecI) ?_
    refine containsSub_append_eq_false
      (containsSub_eq_false_of_head (show ('I' : Char) ∉ (",").data by decide))
      (span_of_head (show ('I' : Char) ∉ (",").data by decide)) ?_
    refine containsSub_append_eq_false (containsSub_eq_false_of_head hrmI)
      (span_of_head hrmI) ?_
    decide

/-- Witness for C10 at concrete inputs: the supplied name `My_Table1!` is
stripped to letters, the letters-only name `MyTable` appears in the `some`
query's `INTO mydb.` clause, and the `none` query contains no `INTO mydb.`
at all. -/
theorem sdss_query_table_name_letters_and_into_clause_witness :
    (sdss_query_init_db_table_name (some "My_Table1!") "abcd").data.all isAsciiLetter = true ∧
    containsSub (construct_query "180.0" "-12.5" "60.0" (some "MyTable")).data
      ("INTO mydb." ++ "MyTable" ++ " ").data = true ∧
    containsSub (construct_query "180.0" "-12.5" "60.0" none).data
      ("INTO mydb.").data = false := by
  refine ⟨sdss_query_table_name_letters_and_into_clause.1 (some "My_Table1!") "abcd",
    sdss_query_table_name_letters_and_into_clause.2.1 "180.0" "-12.5" "60.0" "MyTable"
      (by decide) (by decide) (by decide) (by decide),
    sdss_query_table_name_letters_and_into_clause.2.2 "180.0" "-12.5" "60.0"
      (by decide) (by decide) (by decide)⟩
